import Mathlib

/-!
Verification of the Bezier curve evaluation core of `src/main.cpp`.

The source program draws two Bezier curves (one quadratic, one cubic) by
approximating each curve with `STEPS` straight line segments.  The
algorithmic core consists of the `Point` data type, the linear
interpolation primitive `lerp`, and the two loop-based evaluators
`draw_bezier_quadratic` and `draw_bezier_cubic`.

The source stores coordinates as C `float`; following the specification,
which states the contracts over exact real arithmetic, we model the
coordinates as exact rationals.  The evaluators are embedded as functions
producing the polyline traced by the drawing loop: the start point `p0`
followed by the point computed at each loop iteration `i = 1 .. STEPS`.
-/

/-- Data type representing a position on the screen, a pair of coordinates
`x` and `y` (`Point` in `src/main.cpp`). -/
@[ext]
structure Point where
  x : ℚ
  y : ℚ
deriving DecidableEq

/-- Linear interpolation between two points (`lerp` in `src/main.cpp`):
componentwise `(1 - interp) * p0 + interp * p1`. -/
def lerp (interp : ℚ) (p0 p1 : Point) : Point :=
  ⟨(1 - interp) * p0.x + interp * p1.x,
   (1 - interp) * p0.y + interp * p1.y⟩

/-- Body of the loop of `draw_bezier_quadratic` at interpolation value
`interp`: interpolate `p0`-`p1` and `p1`-`p2`, then interpolate the two
results. -/
def quad_point (interp : ℚ) (p0 p1 p2 : Point) : Point :=
  let p0_p1_interp := lerp interp p0 p1
  let p1_p2_interp := lerp interp p1 p2
  lerp interp p0_p1_interp p1_p2_interp

/-- Polyline traced by `draw_bezier_quadratic` in `src/main.cpp`: the start
point `p0`, then for each loop index `i = 1 .. steps` the point computed
with `interp = i / steps`. -/
def draw_bezier_quadratic (p0 p1 p2 : Point) (steps : ℕ) : List Point :=
  p0 :: (List.range steps).map
    (fun k => quad_point (((k + 1 : ℕ) : ℚ) / (steps : ℚ)) p0 p1 p2)

/-- Body of the loop of `draw_bezier_cubic` at interpolation value
`interp`: three first-layer interpolations, two second-layer
interpolations, then the final interpolation. -/
def cubic_point (interp : ℚ) (p0 p1 p2 p3 : Point) : Point :=
  let p0_p1_interp := lerp interp p0 p1
  let p1_p2_interp := lerp interp p1 p2
  let p2_p3_interp := lerp interp p2 p3
  let p0p1_p1p2_interp := lerp interp p0_p1_interp p1_p2_interp
  let p1p2_p2p3_interp := lerp interp p1_p2_interp p2_p3_interp
  lerp interp p0p1_p1p2_interp p1p2_p2p3_interp

/-- Polyline traced by `draw_bezier_cubic` in `src/main.cpp`: the start
point `p0`, then for each loop index `i = 1 .. steps` the point computed
with `interp = i / steps`. -/
def draw_bezier_cubic (p0 p1 p2 p3 : Point) (steps : ℕ) : List Point :=
  p0 :: (List.range steps).map
    (fun k => cubic_point (((k + 1 : ℕ) : ℚ) / (steps : ℚ)) p0 p1 p2 p3)

/-- Evaluator invoked with a C `int` step count, as in the source, where
`STEPS` is an `int`: the loop `for i = 1; i <= STEPS` executes
`max STEPS 0` times, so a non-positive step count yields zero loop
iterations and the polyline is just `[p0]`. -/
def draw_bezier_quadratic_int (p0 p1 p2 : Point) (steps : ℤ) : List Point :=
  draw_bezier_quadratic p0 p1 p2 steps.toNat

/-- Cubic evaluator invoked with a C `int` step count, analogous to
`draw_bezier_quadratic_int`. -/
def draw_bezier_cubic_int (p0 p1 p2 p3 : Point) (steps : ℤ) : List Point :=
  draw_bezier_cubic p0 p1 p2 p3 steps.toNat

/-- Componentwise sum of two points, the vector addition used by the
specification's formula `(1 - t)·a + t·b`. -/
def Point.add (p q : Point) : Point :=
  ⟨p.x + q.x, p.y + q.y⟩

/-- Componentwise scaling of a point by a rational, the scalar
multiplication used by the specification's formula `(1 - t)·a + t·b`. -/
def Point.smul (c : ℚ) (p : Point) : Point :=
  ⟨c * p.x, c * p.y⟩

/-- Interpolator contract of specification section 4.1, written from the
specification's words: the point `(1 - t)·a + t·b`, componentwise on `x`
and `y`. -/
def interpolate (t : ℚ) (a b : Point) : Point :=
  Point.add (Point.smul (1 - t) a) (Point.smul t b)

/-- Midpoint of two points, written from the specification's testable
properties (section 8). -/
def mid_point (a b : Point) : Point :=
  ⟨(a.x + b.x) / 2, (a.y + b.y) / 2⟩

/-- Quadratic `point_i` as specification section 4.2 computes it:
`a = interpolate(t, p0, p1)`, `b = interpolate(t, p1, p2)`,
`point_i = interpolate(t, a, b)`. -/
def quad_spec_point (t : ℚ) (p0 p1 p2 : Point) : Point :=
  interpolate t (interpolate t p0 p1) (interpolate t p1 p2)

/-- Cubic `point_i` as specification section 4.3 computes it: first layer
`a, b, c`, second layer `ab, bc`, third layer `interpolate(t, ab, bc)`. -/
def cubic_spec_point (t : ℚ) (p0 p1 p2 p3 : Point) : Point :=
  let a := interpolate t p0 p1
  let b := interpolate t p1 p2
  let c := interpolate t p2 p3
  interpolate t (interpolate t a b) (interpolate t b c)

/-- Degree-2 Bernstein form of the quadratic Bezier curve:
`(1-t)²·p0 + 2t(1-t)·p1 + t²·p2`. -/
def bernstein_quad (t : ℚ) (p0 p1 p2 : Point) : Point :=
  Point.add
    (Point.add (Point.smul ((1 - t) ^ 2) p0) (Point.smul (2 * t * (1 - t)) p1))
    (Point.smul (t ^ 2) p2)

/-- Degree-3 Bernstein form of the cubic Bezier curve:
`(1-t)³·p0 + 3t(1-t)²·p1 + 3t²(1-t)·p2 + t³·p3`. -/
def bernstein_cubic (t : ℚ) (p0 p1 p2 p3 : Point) : Point :=
  Point.add
    (Point.add
      (Point.add (Point.smul ((1 - t) ^ 3) p0)
        (Point.smul (3 * t * (1 - t) ^ 2) p1))
      (Point.smul (3 * t ^ 2 * (1 - t)) p2))
    (Point.smul (t ^ 3) p3)

/-- Interpolating a point with itself gives the point back. -/
theorem lerp_self (t : ℚ) (p : Point) : lerp t p p = p := by
  ext <;> simp [lerp] <;> ring

/-- Interpolating at `t = 1` reproduces the second point. -/
theorem lerp_one (a b : Point) : lerp 1 a b = b := by
  ext <;> simp [lerp]

/-- C3: for every rational blend factor `t` (including values outside
`[0,1]`) and all points `a`, `b`, the code's `lerp` returns exactly the
specification's point `(1 - t)·a + t·b`, componentwise on `x` and `y`; it
is a total function with no error conditions. -/
theorem lerp_eq_interpolate (t : ℚ) (a b : Point) :
    lerp t a b = interpolate t a b := by
  ext <;> simp [lerp, interpolate, Point.add, Point.smul]

/-- C6: `lerp 0 a b = a`, `lerp 1 a b = b`, and `lerp (1/2) a b` is the
mid_point of `a` and `b`. -/
theorem lerp_endpoints_and_mid_point (a b : Point) :
    lerp 0 a b = a ∧ lerp 1 a b = b ∧ lerp (1 / 2) a b = mid_point a b := by
  refine ⟨?_, ?_, ?_⟩
  · ext <;> simp [lerp]
  · ext <;> simp [lerp]
  · ext <;> · simp [lerp, mid_point]; ring

/-- C8: for `p0 = (0,0)`, `p1 = (1,0)`, `p2 = (1,1)` and `step_count = 2`,
the middle element of the quadratic evaluator's output (the point computed
at `t = 0.5`) equals `(0.75, 0.25)`. -/
theorem quad_mid_point_value :
    (draw_bezier_quadratic ⟨0, 0⟩ ⟨1, 0⟩ ⟨1, 1⟩ 2).get? 1 =
      some ⟨3 / 4, 1 / 4⟩ := by
  norm_num [draw_bezier_quadratic, quad_point, lerp, List.range_succ]

/-- C10: over exact arithmetic, the nested de Casteljau interpolation of
the code's loop bodies equals the Bernstein polynomial form, for every
blend factor and all control points: quadratic and cubic cases. -/
theorem de_casteljau_eq_bernstein (t : ℚ) (p0 p1 p2 p3 : Point) :
    quad_point t p0 p1 p2 = bernstein_quad t p0 p1 p2 ∧
      cubic_point t p0 p1 p2 p3 = bernstein_cubic t p0 p1 p2 p3 := by
  constructor <;>
    ext <;>
      simp [quad_point, cubic_point, bernstein_quad, bernstein_cubic, lerp,
        Point.add, Point.smul] <;>
    ring

/-- Loop body of the quadratic evaluator agrees with the specification's
description of `point_i` (one layer of interpolation between adjacent
control points, then one more layer). -/
theorem quad_point_eq_spec_point (t : ℚ) (p0 p1 p2 : Point) :
    quad_point t p0 p1 p2 = quad_spec_point t p0 p1 p2 := by
  ext <;>
    simp [quad_point, quad_spec_point, interpolate, lerp, Point.add, Point.smul]

/-- Loop body of the cubic evaluator agrees with the specification's
description of `point_i` (three layers of interpolation). -/
theorem cubic_point_eq_spec_point (t : ℚ) (p0 p1 p2 p3 : Point) :
    cubic_point t p0 p1 p2 p3 = cubic_spec_point t p0 p1 p2 p3 := by
  ext <;>
    simp [cubic_point, cubic_spec_point, interpolate, lerp, Point.add,
      Point.smul]

/-- C1: for every triple of control points and every positive step count,
the quadratic evaluator produces the ordered sequence
`[p0, point_1, ..., point_steps]`, where for each `i` from 1 to `steps`,
with `t = i / steps`, `point_i = interpolate t (interpolate t p0 p1)
(interpolate t p1 p2)` exactly as the specification computes it. -/
theorem quadratic_evaluator_follows_spec (p0 p1 p2 : Point) (steps i : ℕ)
    (hs : 0 < steps) (h1 : 1 ≤ i) (h2 : i ≤ steps) :
    (draw_bezier_quadratic p0 p1 p2 steps).length = steps + 1 ∧
      (draw_bezier_quadratic p0 p1 p2 steps).get? 0 = some p0 ∧
      (draw_bezier_quadratic p0 p1 p2 steps).get? i =
        some (quad_spec_point ((i : ℚ) / (steps : ℚ)) p0 p1 p2) := by
  obtain ⟨j, rfl⟩ : ∃ j, i = j + 1 := ⟨i - 1, (Nat.succ_pred_eq_of_pos h1).symm⟩
  refine ⟨by simp [draw_bezier_quadratic], rfl, ?_⟩
  have hj : j < steps := h2
  simp only [draw_bezier_quadratic, List.get?_cons_succ, List.get?_map,
    List.get?_range hj, Option.map_some']
  rw [quad_point_eq_spec_point]

/-- C2: for every quadruple of control points and every positive step
count, the cubic evaluator produces the ordered sequence
`[p0, point_1, ..., point_steps]`, where for each `i` from 1 to `steps`,
with `t = i / steps`, `point_i` is the triple-layer interpolation exactly
as the specification computes it. -/
theorem cubic_evaluator_follows_spec (p0 p1 p2 p3 : Point) (steps i : ℕ)
    (hs : 0 < steps) (h1 : 1 ≤ i) (h2 : i ≤ steps) :
    (draw_bezier_cubic p0 p1 p2 p3 steps).length = steps + 1 ∧
      (draw_bezier_cubic p0 p1 p2 p3 steps).get? 0 = some p0 ∧
      (draw_bezier_cubic p0 p1 p2 p3 steps).get? i =
        some (cubic_spec_point ((i : ℚ) / (steps : ℚ)) p0 p1 p2 p3) := by
  obtain ⟨j, rfl⟩ : ∃ j, i = j + 1 := ⟨i - 1, (Nat.succ_pred_eq_of_pos h1).symm⟩
  refine ⟨by simp [draw_bezier_cubic], rfl, ?_⟩
  have hj : j < steps := h2
  simp only [draw_bezier_cubic, List.get?_cons_succ, List.get?_map,
    List.get?_range hj, Option.map_some']
  rw [cubic_point_eq_spec_point]

/-- C4: for every control point set and positive step count, each
evaluator's output polyline has length exactly `steps + 1` and its first
element equals `p0` exactly. -/
theorem polyline_length_and_head (p0 p1 p2 p3 : Point) (steps : ℕ)
    (hs : 0 < steps) :
    (draw_bezier_quadratic p0 p1 p2 steps).length = steps + 1 ∧
      (draw_bezier_quadratic p0 p1 p2 steps).head? = some p0 ∧
      (draw_bezier_cubic p0 p1 p2 p3 steps).length = steps + 1 ∧
      (draw_bezier_cubic p0 p1 p2 p3 steps).head? = some p0 := by
  refine ⟨?_, rfl, ?_, rfl⟩ <;> simp [draw_bezier_quadratic, draw_bezier_cubic]

/-- C4 witness: `step_count = 1` yields a 2-point sequence. -/
theorem polyline_length_and_head_witness :
    0 < 1 ∧
      (draw_bezier_quadratic ⟨0, 0⟩ ⟨1, 0⟩ ⟨1, 1⟩ 1).length = 1 + 1 ∧
      (draw_bezier_quadratic ⟨0, 0⟩ ⟨1, 0⟩ ⟨1, 1⟩ 1).head? = some ⟨0, 0⟩ :=
  ⟨Nat.one_pos,
    (polyline_length_and_head ⟨0, 0⟩ ⟨1, 0⟩ ⟨1, 1⟩ ⟨0, 0⟩ 1 Nat.one_pos).1,
    (polyline_length_and_head ⟨0, 0⟩ ⟨1, 0⟩ ⟨1, 1⟩ ⟨0, 0⟩ 1 Nat.one_pos).2.1⟩

/-- C5: at the boundary parameter `t = 1`, for every positive step count
the last element of either evaluator's output equals the last control
point (`p2` for the quadratic, `p3` for the cubic). -/
theorem last_point_eq_last_control (p0 p1 p2 p3 : Point) (steps : ℕ)
    (hs : 0 < steps) :
    (draw_bezier_quadratic p0 p1 p2 steps).getLast? = some p2 ∧
      (draw_bezier_cubic p0 p1 p2 p3 steps).getLast? = some p3 := by
  obtain ⟨n, rfl⟩ : ∃ n, steps = n + 1 :=
    ⟨steps - 1, (Nat.succ_pred_eq_of_pos hs).symm⟩
  have ht : ((n + 1 : ℕ) : ℚ) / ((n + 1 : ℕ) : ℚ) = 1 :=
    div_self (Nat.cast_ne_zero.mpr (Nat.succ_ne_zero n))
  constructor
  · rw [draw_bezier_quadratic, List.range_succ, List.map_append,
      List.map_singleton, ← List.cons_append, List.getLast?_concat, ht]
    simp [quad_point, lerp_one]
  · rw [draw_bezier_cubic, List.range_succ, List.map_append,
      List.map_singleton, ← List.cons_append, List.getLast?_concat, ht]
    simp [cubic_point, lerp_one]

/-- C5 witness: for `p0=(0,0)`, `p1=(0,1)`, `p2=(1,1)`, `p3=(1,0)` and
`step_count = 1`, the cubic evaluator's last output point equals `p3`. -/
theorem last_point_eq_last_control_witness :
    0 < 1 ∧
      (draw_bezier_cubic ⟨0, 0⟩ ⟨0, 1⟩ ⟨1, 1⟩ ⟨1, 0⟩ 1).getLast? =
        some ⟨1, 0⟩ :=
  ⟨Nat.one_pos,
    (last_point_eq_last_control ⟨0, 0⟩ ⟨0, 1⟩ ⟨1, 1⟩ ⟨1, 0⟩ 1 Nat.one_pos).2⟩

/-- C7: if all supplied control points equal one shared point, every point
of either evaluator's output equals that shared point, for every step
count. -/
theorem degenerate_all_points_equal (p : Point) (steps : ℕ) (q : Point) :
    (q ∈ draw_bezier_quadratic p p p steps → q = p) ∧
      (q ∈ draw_bezier_cubic p p p p steps → q = p) := by
  constructor <;> intro hq
  · rcases List.mem_cons.1 hq with h | h
    · exact h
    · obtain ⟨k, -, rfl⟩ := List.mem_map.1 h
      simp [quad_point, lerp_self]
  · rcases List.mem_cons.1 hq with h | h
    · exact h
    · obtain ⟨k, -, rfl⟩ := List.mem_map.1 h
      simp [cubic_point, lerp_self]

/-- C7 witness: with all control points equal to `(1/2, 1/2)` and
`step_count = 2`, a member of the output equals the shared point. -/
theorem degenerate_all_points_equal_witness :
    (⟨1 / 2, 1 / 2⟩ : Point) ∈
        draw_bezier_quadratic ⟨1 / 2, 1 / 2⟩ ⟨1 / 2, 1 / 2⟩ ⟨1 / 2, 1 / 2⟩ 2 ∧
      (⟨1 / 2, 1 / 2⟩ : Point) = ⟨1 / 2, 1 / 2⟩ :=
  ⟨List.mem_cons_self _ _,
    (degenerate_all_points_equal ⟨1 / 2, 1 / 2⟩ 2 ⟨1 / 2, 1 / 2⟩).1
      (List.mem_cons_self _ _)⟩

/-- C1 witness: the quadratic evaluator at `p0=(0,0)`, `p1=(1,0)`,
`p2=(1,1)`, `step_count = 2`, index `i = 1`. -/
theorem quadratic_evaluator_follows_spec_witness :
    0 < 2 ∧ 1 ≤ 1 ∧ 1 ≤ 2 ∧
      ((draw_bezier_quadratic ⟨0, 0⟩ ⟨1, 0⟩ ⟨1, 1⟩ 2).length = 2 + 1 ∧
        (draw_bezier_quadratic ⟨0, 0⟩ ⟨1, 0⟩ ⟨1, 1⟩ 2).get? 0 = some ⟨0, 0⟩ ∧
        (draw_bezier_quadratic ⟨0, 0⟩ ⟨1, 0⟩ ⟨1, 1⟩ 2).get? 1 =
          some (quad_spec_point (((1 : ℕ) : ℚ) / ((2 : ℕ) : ℚ))
            ⟨0, 0⟩ ⟨1, 0⟩ ⟨1, 1⟩)) :=
  ⟨by decide, by decide, by decide,
    quadratic_evaluator_follows_spec ⟨0, 0⟩ ⟨1, 0⟩ ⟨1, 1⟩ 2 1
      (by decide) (by decide) (by decide)⟩

/-- C2 witness: the cubic evaluator at `p0=(0,0)`, `p1=(0,1)`, `p2=(1,1)`,
`p3=(1,0)`, `step_count = 1`, index `i = 1`. -/
theorem cubic_evaluator_follows_spec_witness :
    0 < 1 ∧ 1 ≤ 1 ∧ 1 ≤ 1 ∧
      ((draw_bezier_cubic ⟨0, 0⟩ ⟨0, 1⟩ ⟨1, 1⟩ ⟨1, 0⟩ 1).length = 1 + 1 ∧
        (draw_bezier_cubic ⟨0, 0⟩ ⟨0, 1⟩ ⟨1, 1⟩ ⟨1, 0⟩ 1).get? 0 =
          some ⟨0, 0⟩ ∧
        (draw_bezier_cubic ⟨0, 0⟩ ⟨0, 1⟩ ⟨1, 1⟩ ⟨1, 0⟩ 1).get? 1 =
          some (cubic_spec_point (((1 : ℕ) : ℚ) / ((1 : ℕ) : ℚ))
            ⟨0, 0⟩ ⟨0, 1⟩ ⟨1, 1⟩ ⟨1, 0⟩)) :=
  ⟨by decide, by decide, by decide,
    cubic_evaluator_follows_spec ⟨0, 0⟩ ⟨0, 1⟩ ⟨1, 1⟩ ⟨1, 0⟩ 1 1
      (by decide) (by decide) (by decide)⟩

/-- C9 counterexample: invoked with malformed step counts (`-1` and `0`),
the evaluators do not reject the call with any invalid-argument signal:
the loop body executes zero times and each call succeeds, returning the
one-point polyline `[p0]`. -/
theorem no_rejection_on_nonpositive_steps :
    draw_bezier_quadratic_int ⟨0, 0⟩ ⟨1, 0⟩ ⟨1, 1⟩ (-1) = [⟨0, 0⟩] ∧
      draw_bezier_cubic_int ⟨0, 0⟩ ⟨0, 1⟩ ⟨1, 1⟩ ⟨1, 0⟩ 0 = [⟨0, 0⟩] := by
  constructor <;> rfl

/-- C9 amended: the evaluators perform no step-count validation; with a
non-positive step count the loop executes zero times and the output is the
one-point sequence `[p0]` (never empty or negative-length), and for every
positive step count they are total, always succeeding with a polyline of
`step_count + 1` points. -/
theorem evaluators_total_without_validation (p0 p1 p2 p3 : Point)
    (steps : ℤ) :
    (steps ≤ 0 →
        draw_bezier_quadratic_int p0 p1 p2 steps = [p0] ∧
          draw_bezier_cubic_int p0 p1 p2 p3 steps = [p0]) ∧
      (0 < steps →
        (draw_bezier_quadratic_int p0 p1 p2 steps).length =
            steps.toNat + 1 ∧
          (draw_bezier_cubic_int p0 p1 p2 p3 steps).length =
            steps.toNat + 1) := by
  constructor
  · intro h
    have h0 : steps.toNat = 0 := Int.toNat_of_nonpos h
    constructor <;>
      simp [draw_bezier_quadratic_int, draw_bezier_cubic_int,
        draw_bezier_quadratic, draw_bezier_cubic, h0]
  · intro h
    constructor <;>
      simp [draw_bezier_quadratic_int, draw_bezier_cubic_int,
        draw_bezier_quadratic, draw_bezier_cubic]

/-- C9 amended witness: at step count `-1` the evaluators return `[p0]`;
at step count `2` they return polylines of `2 + 1` points. -/
theorem evaluators_total_without_validation_witness :
    ((-1 : ℤ) ≤ 0 ∧
        draw_bezier_quadratic_int ⟨0, 0⟩ ⟨1, 0⟩ ⟨1, 1⟩ (-1) = [⟨0, 0⟩] ∧
          draw_bezier_cubic_int ⟨0, 0⟩ ⟨1, 0⟩ ⟨1, 1⟩ ⟨1, 0⟩ (-1) =
            [⟨0, 0⟩]) ∧
      ((0 : ℤ) < 2 ∧
        (draw_bezier_quadratic_int ⟨0, 0⟩ ⟨1, 0⟩ ⟨1, 1⟩ 2).length =
            (2 : ℤ).toNat + 1 ∧
          (draw_bezier_cubic_int ⟨0, 0⟩ ⟨1, 0⟩ ⟨1, 1⟩ ⟨1, 0⟩ 2).length =
            (2 : ℤ).toNat + 1) :=
  ⟨⟨by decide,
      (evaluators_total_without_validation ⟨0, 0⟩ ⟨1, 0⟩ ⟨1, 1⟩ ⟨1, 0⟩
          (-1)).1 (by decide)⟩,
    ⟨by decide,
      (evaluators_total_without_validation ⟨0, 0⟩ ⟨1, 0⟩ ⟨1, 1⟩ ⟨1, 0⟩
          2).2 (by decide)⟩⟩
